import Mathlib

/-!
Shallow embedding of the multi-agent workflow orchestration core of the
`binks-agent-orchestrator` repository, together with theorems settling the
specification claims about it.

The embedding follows the Python source:
  - `orchestrator/cli_orchestrator/orchestrator.py`
      (`ConvergenceCriteria.should_stop`, `Conversation`, `run_moa_workflow`)
  - `orchestrator/cli_orchestrator/agent.py`
      (`Agent.invoke`, the default verdict parsing)
  - `orchestrator/cli_orchestrator/memory_bank.py`
      (`MemoryBank.read_context`, `update_active_context`,
       `append_to_active_context`, `compact`)

Python strings are modelled as Lean `String`s; the Python string operations
used by the code (`upper`, `strip`, slicing, `in`, `endswith`, `startswith`,
`split("\n")`, `"\n".join`) are given explicit executable definitions over
the underlying character list.  Machine integers in the code are ordinary
unbounded Python `int`s, so they are modelled as `Int`/`Nat` without any
wrap-around.  Code that can raise at runtime is modelled with an explicit
error constructor in the result type.
-/

namespace BinksOrch

/-! ### Python string primitives -/

/-- Python `s.upper()` (the code only ever upcases ASCII verdict tokens). -/
def pyUpper (s : String) : String := ⟨s.data.map Char.toUpper⟩

/-- `listHasIn pat l` decides whether `pat` occurs as a contiguous
sublist of `l`; this models the Python substring test `pat in s`. -/
def listHasIn (pat : List Char) : List Char → Bool
  | [] => pat.isPrefixOf ([] : List Char)
  | c :: cs => pat.isPrefixOf (c :: cs) || listHasIn pat cs

/-- Python `pat in s` (substring containment). -/
def strIn (pat s : String) : Bool := listHasIn pat.data s.data

/-- Python `s.endswith(pat)`. -/
def strEnds (s pat : String) : Bool := pat.data.reverse.isPrefixOf s.data.reverse

/-- Python `s.startswith(pat)`. -/
def strStarts (s pat : String) : Bool := pat.data.isPrefixOf s.data

/-- Python `s.strip()`: remove leading and trailing whitespace. -/
def pyStrip (s : String) : String :=
  ⟨((s.data.dropWhile Char.isWhitespace).reverse.dropWhile Char.isWhitespace).reverse⟩

/-- Python `s[-n:]` for `n > 0`: the last `n` characters. -/
def pyTakeLast (s : String) (n : Nat) : String := ⟨(s.data.reverse.take n).reverse⟩

/-- Python `s[:n]` for `n ≥ 0`: the first `n` characters. -/
def pySlice (s : String) (n : Nat) : String := ⟨s.data.take n⟩

/-- Python `len(s)` (code points). -/
def pyLen (s : String) : Nat := s.data.length

/-! ### `ConvergenceCriteria` (orchestrator.py lines 45-70) -/

/-- The `ConvergenceCriteria` dataclass.  Python `int` fields are modelled
as `Int` (`context_char_limit` only ever compares against a length, so it
is kept as `Nat`, matching every value the code ever supplies). -/
structure ConvergenceCriteria where
  max_iterations : Int := 5
  require_critic_pass : Bool := true
  require_tests_pass : Bool := false
  context_char_limit : Nat := 50000
deriving Repr, DecidableEq

/-- `ConvergenceCriteria.should_stop` (orchestrator.py lines 53-70),
with the same early-return structure as the source. -/
def ConvergenceCriteria.should_stop (c : ConvergenceCriteria) (iteration : Int)
    (critic_verdict : String) (test_result : Bool := true) : Bool × String :=
  if iteration ≥ c.max_iterations then
    (true, "max_iterations_reached")
  else if c.require_critic_pass && critic_verdict == "PASS" then
    if !c.require_tests_pass || test_result then
      (true, "success")
    else
      (false, "continue")
  else
    (false, "continue")

/-! ### Default verdict parsing (agent.py lines 287-326) -/

/-- The verdict extracted by `Agent._default_parser` (agent.py lines
297-314): labelled `VERDICT:` tokens anywhere in the upcased content take
priority, then the trailing-100-character heuristic, then
`NEEDS_REVISION`, else no verdict. -/
def defaultParserVerdict (content : String) : Option String :=
  let content_upper := pyUpper content
  let tl := if pyLen content_upper > 100 then pyTakeLast content_upper 100 else content_upper
  if strIn "VERDICT: PASS" content_upper || strIn "VERDICT:PASS" content_upper then
    some "PASS"
  else if strIn "VERDICT: FAIL" content_upper || strIn "VERDICT:FAIL" content_upper then
    some "FAIL"
  else if strEnds (pyStrip tl) "PASS" || strIn "\nPASS" tl then
    some "PASS"
  else if strEnds (pyStrip tl) "FAIL" || strIn "\nFAIL" tl then
    some "FAIL"
  else if strIn "NEEDS_REVISION" content_upper then
    some "NEEDS_REVISION"
  else
    none

/-! ### Backends, agents and responses (runners/base.py, agent.py) -/

/-- `RunnerResult` (runners/base.py lines 12-27), restricted to the fields
the orchestration core reads (`content`, `success`; the remaining fields
are diagnostic metadata that no claim mentions). -/
structure RunnerResult where
  content : String
  success : Bool := true
deriving Repr, DecidableEq

/-- A backend (`CLIRunner` subclass): the core only uses `run` and `name`.
Stub backends that always return a result are total functions here. -/
structure Runner where
  name : String
  run : String → RunnerResult

/-- `AgentResponse` (agent.py lines 148-164), restricted to the fields the
claims mention. -/
structure AgentResponse where
  content : String
  success : Bool := true
  verdict : Option String := none
deriving Repr, DecidableEq

/-- `Agent._default_parser` (agent.py lines 287-326): builds the
`AgentResponse` from the backend content and result.  The verdict is
extracted from `content` by `defaultParserVerdict`; `success` is copied
from the backend result (`true` when no result is given). -/
def defaultParse (content : String) (result : Option RunnerResult) : AgentResponse :=
  { content := content
    success := match result with
      | some r => r.success
      | none => true
    verdict := defaultParserVerdict content }

/-- `Agent` (agent.py lines 180-243) with the default response parser
(the role field is semantic-only and unused by the workflow logic). -/
structure Agent where
  name : String
  runner : Runner
  system_prompt : String := ""

/-- The prompt assembled by `Agent.invoke` (agent.py lines 262-273):
system prompt (if non-empty), then a `Context:` block (if non-empty),
then the task, joined by blank lines. -/
def Agent.buildPrompt (a : Agent) (prompt : String) (context : String) : String :=
  let parts : List String :=
    (if a.system_prompt ≠ "" then [a.system_prompt] else [])
      ++ (if context ≠ "" then ["Context:\n" ++ context] else [])
      ++ ["Task:\n" ++ prompt]
  String.intercalate "\n\n" parts

/-- `Agent.invoke` (agent.py lines 245-285): build the prompt, run the
backend, parse the result.  The Lean function is total: given a backend
`run` that returns a result, `invoke` cannot raise. -/
def Agent.invoke (a : Agent) (prompt : String) (context : String := "") : AgentResponse :=
  let result := a.runner.run (a.buildPrompt prompt context)
  defaultParse result.content (some result)

/-! ### Conversation log (orchestrator.py lines 73-144) -/

/-- `ConversationTurn` (orchestrator.py lines 73-98), restricted to the
fields the claims mention (timestamp and execution time are wall-clock
diagnostics). -/
structure ConversationTurn where
  agent_name : String
  role : String
  prompt : String
  response : String
  backend : String := ""
  success : Bool := true
deriving Repr, DecidableEq

/-- `Conversation` (orchestrator.py lines 101-144).  The Python metadata
two dict keys written by the MoA workflow (`"iterations"` and
`"final_status"`) are modelled as optional fields. -/
structure Conversation where
  id : String
  goal : String
  turns : List ConversationTurn := []
  status : String := "active"
  metadata_iterations : Option Nat := none
  metadata_final_status : Option String := none
deriving Repr, DecidableEq

/-- `Conversation.add_turn` (orchestrator.py lines 111-112):
`self.turns.append(turn)`. -/
def Conversation.add_turn (c : Conversation) (t : ConversationTurn) : Conversation :=
  { c with turns := c.turns ++ [t] }

/-- `Conversation.get_context` (orchestrator.py lines 114-124): the goal
plus the most recent `max_turns` turns, rendered oldest-first.  It reads
the log without modifying it. -/
def Conversation.get_context (c : Conversation) (max_turns : Nat := 10) : String :=
  let recent :=
    if c.turns.length > max_turns then c.turns.drop (c.turns.length - max_turns)
    else c.turns
  let context_parts :=
    ("Goal: " ++ c.goal ++ "\n")
      :: recent.map (fun t => "\n[" ++ t.agent_name ++ " (" ++ t.role ++ ")]:\n" ++ t.response ++ "\n")
  String.intercalate "\n" context_parts

/-- `Conversation.get_last_response` (orchestrator.py lines 126-130). -/
def Conversation.get_last_response (c : Conversation) : Option String :=
  c.turns.getLast?.map (·.response)

/-! ### Memory Bank (memory_bank.py) -/

/-- The three Markdown files of the Memory Bank; `none` models a file
that does not exist on disk. -/
structure MemoryBank where
  product_context : Option String := none
  active_context : Option String := none
  system_patterns : Option String := none
deriving Repr, DecidableEq

/-- The `initialize` method of `MemoryBank` (memory_bank.py lines
65-127); `now` is the `datetime.now().isoformat()` string written into
the active-context header. -/
def MemoryBank.init_files (now goal : String) (project_info : String := "") : MemoryBank :=
  { product_context := some
      ("# Product Context\n\n## Goal\n" ++ goal
        ++ "\n\n## Project Info\n" ++ project_info
        ++ "\n\n## Success Criteria\n- [ ] Define during planning phase\n\n## Constraints\n- [ ] Define any constraints or requirements\n")
    active_context := some
      ("# Active Context\n_Last updated: " ++ now ++ "_\n\n## Current State\n- Status: INITIALIZED\n- Phase: PLANNING\n- Iteration: 0\n\n## What We\x27re Working On\n(To be updated by agents)\n\n## Recent Progress\n(Empty - just started)\n\n## Blockers\n(None yet)\n\n## Next Steps\n1. Generate implementation plan\n")
    system_patterns := some
      "# System Patterns\n\n## Architectural Decisions\n(To be populated during design phase)\n\n## Code Patterns\n(To be populated during implementation)\n\n## API Contracts\n(Define interfaces between components)\n\n## Lessons Learned\n(Updated after each iteration)\n" }

/-- `MemoryBank.read_context` (memory_bank.py lines 129-155): concatenate
the existing files with a banner per file; if the combined length exceeds
`max_chars` a warning is prepended (content is not truncated). -/
def MemoryBank.read_context (mb : MemoryBank) (max_chars : Nat := 50000) : String :=
  let parts : List String :=
    (match mb.product_context with
      | some s => ["=== PRODUCT CONTEXT ===\n" ++ s]
      | none => [])
    ++ (match mb.active_context with
      | some s => ["=== ACTIVE CONTEXT ===\n" ++ s]
      | none => [])
    ++ (match mb.system_patterns with
      | some s => ["=== SYSTEM PATTERNS ===\n" ++ s]
      | none => [])
  let content := String.intercalate "\n\n" parts
  if pyLen content > max_chars then
    "[WARNING: Context exceeds " ++ toString max_chars ++ " chars. Consider compacting.]\n\n" ++ content
  else content

/-- `MemoryBank.read_active_context` (memory_bank.py lines 157-161). -/
def MemoryBank.read_active_context (mb : MemoryBank) : String :=
  match mb.active_context with
  | some s => s
  | none => ""

/-- `MemoryBank.update_active_context` (memory_bank.py lines 163-172):
full overwrite of the active-context file under a fresh timestamp
header. -/
def MemoryBank.update_active_context (mb : MemoryBank) (now content : String) : MemoryBank :=
  { mb with active_context := some ("# Active Context\n_Last updated: " ++ now ++ "_\n\n" ++ content) }

/-- Python `current.split("\n")` on the character list. -/
def splitLines : List Char → List (List Char)
  | [] => [[]]
  | c :: cs =>
    if c = '\n' then [] :: splitLines cs
    else
      match splitLines cs with
      | [] => [[c]]
      | l :: ls => (c :: l) :: ls

/-- Python `"\n".join(lines)` on character lists. -/
def joinLines : List (List Char) → List Char
  | [] => []
  | [l] => l
  | l :: ls => l ++ '\n' :: joinLines ls

/-- The `for line in lines` loop of `MemoryBank.append_to_active_context`
(memory_bank.py lines 187-207), including the trailing
`if in_section: new_lines.append(content)`.  `hdr` is the character list
of `"## " + section` and `content` the appended content. -/
def apcLines (hdr content : List Char) (inSec : Bool) : List (List Char) → List (List Char)
  | [] => if inSec then [content] else []
  | line :: rest =>
    if hdr.isPrefixOf line then
      line :: apcLines hdr content true rest
    else if inSec && ("## ".data.isPrefixOf line) then
      content :: [] :: line :: apcLines hdr content false rest
    else
      line :: apcLines hdr content inSec rest

/-- `MemoryBank.append_to_active_context` (memory_bank.py lines 174-213). -/
def MemoryBank.append_to_active_context (mb : MemoryBank) (sec content : String) : MemoryBank :=
  let current := mb.read_active_context
  if strIn ("## " ++ sec) current then
    let res := String.mk (joinLines (apcLines ("## " ++ sec).data content.data false (splitLines current.data)))
    { mb with active_context := some res }
  else
    { mb with active_context := some (current ++ "\n\n## " ++ sec ++ "\n" ++ content) }

/-- `MemoryBank.compact` (memory_bank.py lines 267-295) as its docstring
specifies it: `summarizer` is a function from text to summary text.  Note
that `run_moa_workflow` does NOT satisfy this contract when it calls
`compact(architect.runner)`: a `CLIRunner` instance is not callable (no
runner class in the repository defines `__call__`), so that call raises
`TypeError` inside `compact`; the workflow model below records this as an
error outcome. -/
def MemoryBank.compact (mb : MemoryBank) (now : String) (summarizer : Option (String → String)) :
    MemoryBank × String :=
  let context := mb.read_context 999999
  match summarizer with
  | some f =>
    let prompt :=
      "Summarize this context, preserving key decisions and current state:\n\n" ++ context
        ++ "\n\nProvide a condensed version that captures:\n1. Core goal and success criteria\n2. Key architectural decisions\n3. Current progress and blockers\n4. Immediate next steps"
    (mb.update_active_context now (f prompt), "Context compacted.")
  | none =>
    (mb, "Context is " ++ toString (pyLen context) ++ " chars. Provide a summarizer to compact.")

/-! ### `Orchestrator.run_moa_workflow` (orchestrator.py lines 349-560)

The workflow is modelled as a function of an environment (goal, agents,
criteria, and a clock supplying the `datetime.now().isoformat()` strings
written into active-context headers).  Each run also yields a trace of the
observable workflow actions in execution order, used by the temporal
claims.  The `while True` loop is written with explicit fuel; the
theorems below show the fuel `max_iterations` is never exhausted. -/

/-- One observable action of a MoA workflow run, tagged with the
1-based iteration number: the pre-planning context read (with the length
that is compared against `context_char_limit`), the `compact()` call, and
the four agent phases. -/
inductive MoaEvent where
  | ctxCheck (iteration : Nat) (len : Nat)
  | compactCall (iteration : Nat)
  | planning (iteration : Nat)
  | coding (iteration : Nat)
  | reviewing (iteration : Nat)
  | fixing (iteration : Nat)
deriving Repr, DecidableEq

/-- The data available when `run_moa_workflow` returns normally. -/
structure MoaResult where
  conversation : Conversation
  iterations : Nat
  stop_reason : String
  memory : MemoryBank
  trace : List MoaEvent
deriving Repr, DecidableEq

/-- Outcome of a run.  `typeErrorNotCallable` models the `TypeError`
raised inside `MemoryBank.compact` when `run_moa_workflow` passes
`architect.runner` (a `CLIRunner` instance, which defines no `__call__`)
as `summarizer_callable` and `compact` executes
`summarizer_callable(prompt)` (memory_bank.py line 291, reached from
orchestrator.py line 408).  `fuelOut` is a model artifact: the theorems
show it never occurs with fuel `max_iterations`. -/
inductive MoaOutcome where
  | ok (r : MoaResult)
  | typeErrorNotCallable (iteration : Nat) (trace : List MoaEvent)
  | fuelOut (trace : List MoaEvent)
deriving Repr, DecidableEq

/-- The trace of events emitted before the run finished (in all cases). -/
def MoaOutcome.traceOf : MoaOutcome → List MoaEvent
  | .ok r => r.trace
  | .typeErrorNotCallable _ tr => tr
  | .fuelOut tr => tr

/-- Whether the run returned a `Conversation` (rather than raising). -/
def MoaOutcome.isOk : MoaOutcome → Bool
  | .ok _ => true
  | _ => false

/-- The iteration at which the run raised `TypeError`, if it did. -/
def MoaOutcome.errIteration : MoaOutcome → Option Nat
  | .typeErrorNotCallable i _ => some i
  | _ => none

/-- `true` when every pre-planning context read in the trace was within
the compaction limit, i.e. the compaction path never triggered. -/
def ctxWithinLimit (limit : Nat) (tr : List MoaEvent) : Bool :=
  tr.all fun e =>
    match e with
    | .ctxCheck _ l => decide (l ≤ limit)
    | _ => true

/-- Environment of one `run_moa_workflow` call: the arguments plus the
fresh conversation id and the clock for timestamp strings (`clock 0` is
consumed by `initialize`, later ticks by `update_active_context`).
`critic` is the explicit critic; the Python default (`critic or
architect`) is obtained by passing the architect here. -/
structure MoaEnv where
  conv_id : String
  goal : String
  architect : Agent
  executor : Agent
  critic : Agent
  convergence : ConvergenceCriteria
  clock : Nat → String

/-- The review instruction of the REVIEWING phase (orchestrator.py lines
467-473). -/
def reviewInstruction : String :=
  "Review this implementation briefly.\nIs it correct and complete for the task?\n\nYou MUST end your response with exactly one of:\nVERDICT: PASS\nor\nVERDICT: FAIL"

/-- The active-context overwrite written after REVIEWING (orchestrator.py
lines 494-510). -/
def moaUpdateText (iteration : Nat) (plan impl review : AgentResponse) : String :=
  "## Current State\n- Status: ITERATION " ++ toString iteration
    ++ "\n- Phase: REVIEWING (just completed)\n- Verdict: " ++ (review.verdict.getD "PENDING")
    ++ "\n\n## Latest Plan Summary\n" ++ pySlice plan.content 500
    ++ "...\n\n## Latest Implementation Summary\n" ++ pySlice impl.content 500
    ++ "...\n\n## Latest Review\n" ++ pySlice review.content 500
    ++ "...\n\n## Next Steps\n"
    ++ (if review.verdict ≠ some "PASS" then "Fix issues and iterate" else "Task complete!")
    ++ "\n"

/-- PLANNING response (orchestrator.py lines 416-419). -/
def moaPlan (E : MoaEnv) (context : String) : AgentResponse :=
  E.architect.invoke ("Design solution for: " ++ E.goal) context

/-- CODING response (orchestrator.py lines 441-444). -/
def moaImpl (E : MoaEnv) (plan : AgentResponse) : AgentResponse :=
  E.executor.invoke "Implement this design" plan.content

/-- REVIEWING response (orchestrator.py lines 466-474). -/
def moaReview (E : MoaEnv) (impl : AgentResponse) : AgentResponse :=
  E.critic.invoke reviewInstruction impl.content

/-- FIX response (orchestrator.py lines 536-539). -/
def moaFix (E : MoaEnv) (review impl : AgentResponse) : AgentResponse :=
  E.executor.invoke ("Fix based on this feedback: " ++ review.content) impl.content

/-- The PLANNING turn record (orchestrator.py lines 425-434). -/
def planTurnOf (E : MoaEnv) (plan : AgentResponse) : ConversationTurn :=
  { agent_name := E.architect.name, role := "architect"
    prompt := "Design solution for: " ++ E.goal, response := plan.content
    backend := E.architect.runner.name, success := plan.success }

/-- The CODING turn record (orchestrator.py lines 450-459). -/
def implTurnOf (E : MoaEnv) (impl : AgentResponse) : ConversationTurn :=
  { agent_name := E.executor.name, role := "implementer"
    prompt := "Implement this design", response := impl.content
    backend := E.executor.runner.name, success := impl.success }

/-- The REVIEWING turn record (orchestrator.py lines 482-491). -/
def reviewTurnOf (E : MoaEnv) (review : AgentResponse) : ConversationTurn :=
  { agent_name := E.critic.name, role := "reviewer"
    prompt := "Review implementation", response := review.content
    backend := E.critic.runner.name, success := review.success }

/-- The FIX turn record (orchestrator.py lines 545-554). -/
def fixTurnOf (E : MoaEnv) (fixr : AgentResponse) : ConversationTurn :=
  { agent_name := E.executor.name, role := "implementer"
    prompt := "Fix based on feedback", response := fixr.content
    backend := E.executor.runner.name, success := fixr.success }

/-- The convergence check (orchestrator.py lines 513-516):
`should_stop(iteration, review_response.verdict or "")`. -/
def moaStopOf (E : MoaEnv) (iteration : Nat) (review : AgentResponse) : Bool × String :=
  E.convergence.should_stop (iteration : Int) (review.verdict.getD "")

/-- The final status string (orchestrator.py lines 521-529): `"completed"`
for reason `"success"`, `"failed"` for every other stop reason. -/
def moaStatusOf (sr : Bool × String) : String :=
  if sr.2 == "success" then "completed" else "failed"

/-- Prepends the events of one finished iteration (phases plus the FIX turn)
onto the outcome of the remaining loop. -/
def moaCont (iteration : Nat) (evs : List MoaEvent) : MoaOutcome → MoaOutcome
  | .ok r => .ok { r with trace := evs ++ .fixing iteration :: r.trace }
  | .typeErrorNotCallable i tr => .typeErrorNotCallable i (evs ++ .fixing iteration :: tr)
  | .fuelOut tr => .fuelOut (evs ++ .fixing iteration :: tr)

/-- The `while True` loop body of `run_moa_workflow` (orchestrator.py
lines 400-554).  `k` is the iteration counter before `iteration += 1`;
`tick` indexes the clock.  Each recursive step consumes one fuel. -/
def moaLoop (E : MoaEnv) : Nat → Nat → MemoryBank → Conversation → Nat → MoaOutcome
  | 0, _, _, _, _ => .fuelOut []
  | fuel + 1, k, mb, conv, tick =>
    let iteration := k + 1
    let len0 := pyLen (mb.read_context)
    if len0 > E.convergence.context_char_limit then
      -- orchestrator.py line 408: `self.memory_bank.compact(architect.runner)`.
      -- `compact` runs `summarizer_callable(prompt)` on the runner object,
      -- which is not callable, so the run dies with `TypeError` here.
      .typeErrorNotCallable iteration [.ctxCheck iteration len0, .compactCall iteration]
    else
      -- Phases 1-3: PLANNING, CODING, REVIEWING, each recorded as a turn
      let plan := moaPlan E (mb.read_context)
      let impl := moaImpl E plan
      let review := moaReview E impl
      let conv := ((conv.add_turn (planTurnOf E plan)).add_turn
        (implTurnOf E impl)).add_turn (reviewTurnOf E review)
      -- Memory bank overwrite with progress (orchestrator.py lines 494-510)
      let mb := mb.update_active_context (E.clock tick) (moaUpdateText iteration plan impl review)
      -- Phase 4: convergence check
      let sr := moaStopOf E iteration review
      let evs : List MoaEvent :=
        [.ctxCheck iteration len0, .planning iteration, .coding iteration, .reviewing iteration]
      if sr.1 then
        let status := moaStatusOf sr
        .ok { conversation :=
                { conv with
                  status := status
                  metadata_iterations := some iteration
                  metadata_final_status := some status }
              iterations := iteration, stop_reason := sr.2
              memory := mb, trace := evs }
      else
        -- Phase 5: FIX
        let conv := conv.add_turn (fixTurnOf E (moaFix E review impl))
        moaCont iteration evs (moaLoop E fuel iteration mb conv (tick + 1))

/-- `Orchestrator.run_moa_workflow` (orchestrator.py lines 349-560):
create a conversation, initialize the Memory Bank, then iterate. -/
def run_moa_workflow (E : MoaEnv) (fuel : Nat) : MoaOutcome :=
  let conv : Conversation := { id := E.conv_id, goal := E.goal }
  let mb := MemoryBank.init_files (E.clock 0) E.goal
  moaLoop E fuel 0 mb conv 1


/-- The returned `Conversation`, when the run returned one. -/
def MoaOutcome.conversationOf : MoaOutcome → Option Conversation
  | .ok r => some r.conversation
  | _ => none

/-- The final stop reason, when the run returned normally. -/
def MoaOutcome.stopReasonOf : MoaOutcome → Option String
  | .ok r => some r.stop_reason
  | _ => none

/-! ### Concrete stub scenarios used by the settled claims -/

/-- Stub backend that echoes its prompt back as content. -/
def echoRunner : Runner := { name := "stubEcho", run := fun p => { content := p, success := true } }

/-- Stub backend that always fails, with content `"ERROR"`. -/
def errorRunner : Runner := { name := "stubErr", run := fun _ => { content := "ERROR", success := false } }

/-- Stub backend that always answers `VERDICT: PASS`. -/
def passRunner : Runner := { name := "stubPass", run := fun _ => { content := "VERDICT: PASS", success := true } }

/-- Stub backend that always answers `VERDICT: FAIL`. -/
def failRunner : Runner := { name := "stubFail", run := fun _ => { content := "VERDICT: FAIL", success := true } }

/-- Scenario: the architect backend fails on every call, the executor
echoes its prompt, the critic always passes; default criteria. -/
def envBackendFailure : MoaEnv :=
  { conv_id := "c1", goal := "G"
    architect := { name := "arch", runner := errorRunner }
    executor := { name := "exec", runner := echoRunner }
    critic := { name := "crit", runner := passRunner }
    convergence := {}
    clock := fun _ => "T" }

/-- Scenario: healthy stub agents but `context_char_limit = 0`, so the
very first context read already exceeds the limit and triggers the
compaction path. -/
def envZeroLimit : MoaEnv :=
  { conv_id := "c1", goal := "G"
    architect := { name := "arch", runner := echoRunner }
    executor := { name := "exec", runner := echoRunner }
    critic := { name := "crit", runner := passRunner }
    convergence := { context_char_limit := 0 }
    clock := fun _ => "T" }

/-- Scenario: healthy stub agents, default criteria; the critic passes at
iteration 1 and the context never grows past the 50000-character limit. -/
def envHealthy : MoaEnv :=
  { conv_id := "c1", goal := "G"
    architect := { name := "arch", runner := echoRunner }
    executor := { name := "exec", runner := echoRunner }
    critic := { name := "crit", runner := passRunner }
    convergence := {}
    clock := fun _ => "T" }

/-- Scenario: the critic fails iteration 1, and the compaction limit
equals the length (763 characters) of the freshly initialized context, so
the context read first exceeds the limit exactly before iteration 2. -/
def envCompactAtTwo : MoaEnv :=
  { conv_id := "c1", goal := "G"
    architect := { name := "arch", runner := echoRunner }
    executor := { name := "exec", runner := echoRunner }
    critic := { name := "crit", runner := failRunner }
    convergence := { max_iterations := 3, context_char_limit := 763 }
    clock := fun _ => "T" }

/-- Agent over a backend that reports failure yet emits a verdict token. -/
def failingVerdictAgent : Agent :=
  { name := "a"
    runner := { name := "r", run := fun _ => { content := "VERDICT: PASS", success := false } } }

/-- Memory bank whose active context holds two subsections. -/
def mbTwoSections : MemoryBank :=
  { active_context := some "## A\nold\n## B\nb" }

/-! ### Claim theorems -/

set_option maxRecDepth 400000

/-- C1: `should_stop` stops with reason `"max_iterations_reached"`
whenever `iteration >= max_iterations`, regardless of verdict; below that
bound it returns `(true, "success")` iff `require_critic_pass` is true,
the verdict equals `"PASS"`, and (`require_tests_pass` is false or the
test result is true); in every other case it returns
`(false, "continue")`. -/
theorem should_stop_characterization (c : ConvergenceCriteria) (it : Int) (v : String) (t : Bool) :
    (c.max_iterations ≤ it → c.should_stop it v t = (true, "max_iterations_reached")) ∧
    (it < c.max_iterations →
      ((c.should_stop it v t = (true, "success")) ↔
        (c.require_critic_pass = true ∧ v = "PASS" ∧ (c.require_tests_pass = false ∨ t = true))) ∧
      (¬(c.require_critic_pass = true ∧ v = "PASS" ∧ (c.require_tests_pass = false ∨ t = true)) →
        c.should_stop it v t = (false, "continue"))) := by
  unfold ConvergenceCriteria.should_stop
  constructor
  · intro h
    rw [if_pos (by omega)]
  · intro h
    rw [if_neg (by omega)]
    by_cases h1 : c.require_critic_pass <;>
      by_cases h2 : v = "PASS" <;>
      by_cases h3 : c.require_tests_pass <;>
      by_cases h4 : t <;>
      simp_all [Prod.ext_iff]

/-- C1 witness: a pass verdict below the bound stops with `"success"`. -/
theorem should_stop_characterization_witness :
    ConvergenceCriteria.should_stop
      { max_iterations := 5, require_critic_pass := true, require_tests_pass := false,
        context_char_limit := 50000 } 3 "PASS" true = (true, "success") :=
  ((should_stop_characterization _ 3 "PASS" true).2 (by decide)).1.mpr (by decide)

/-- C2 counterexample: at the boundary `iteration == max_iterations`, a
`"PASS"` verdict stops with reason `"max_iterations_reached"`, not
`(true, "success")` as the claim states. -/
theorem should_stop_boundary_counterexample :
    ConvergenceCriteria.should_stop
      { max_iterations := 1, require_critic_pass := true, require_tests_pass := false,
        context_char_limit := 50000 } 1 "PASS" true = (true, "max_iterations_reached") ∧
    ConvergenceCriteria.should_stop
      { max_iterations := 1, require_critic_pass := true, require_tests_pass := false,
        context_char_limit := 50000 } 1 "PASS" true ≠ (true, "success") := by
  decide

/-- C2 (amended): with `require_critic_pass = true` and
`require_tests_pass = false`, verdict `"PASS"` at any `iteration ≤
max_iterations` stops the workflow — with reason `"success"` strictly
below the boundary, and reason `"max_iterations_reached"` at
`iteration == max_iterations`. -/
theorem should_stop_pass_below_boundary (c : ConvergenceCriteria) (it : Int)
    (h1 : c.require_critic_pass = true) (h2 : c.require_tests_pass = false)
    (h : it ≤ c.max_iterations) :
    c.should_stop it "PASS" true =
      (if it = c.max_iterations then (true, "max_iterations_reached") else (true, "success")) := by
  unfold ConvergenceCriteria.should_stop
  by_cases he : it = c.max_iterations
  · rw [if_pos he, if_pos (by omega)]
  · rw [if_neg he, if_neg (by omega)]
    simp [h1, h2]

/-- C2 witness: strictly below the bound, `"PASS"` stops with
`"success"`. -/
theorem should_stop_pass_below_boundary_witness :
    ConvergenceCriteria.should_stop
      { max_iterations := 3, require_critic_pass := true, require_tests_pass := false,
        context_char_limit := 50000 } 2 "PASS" true = (true, "success") := by
  have h := should_stop_pass_below_boundary
    { max_iterations := 3, require_critic_pass := true, require_tests_pass := false,
      context_char_limit := 50000 } 2 rfl rfl (by decide)
  rw [h]
  decide

/-- C9: `add_turn` is strictly append-only: the new turn list is the old
list with the turn appended at the end, the count grows by exactly one,
every prior turn keeps its position, and the goal (and the other
conversation fields) are unchanged.  The remaining `Conversation`
operations (`get_context`, `get_last_response`) are read-only functions of
the log, so no operation removes or reorders turns. -/
theorem add_turn_append_only (c : Conversation) (t : ConversationTurn) :
    (c.add_turn t).turns = c.turns ++ [t] ∧
    (c.add_turn t).turns.length = c.turns.length + 1 ∧
    (c.add_turn t).turns.take c.turns.length = c.turns ∧
    (c.add_turn t).goal = c.goal ∧
    (c.add_turn t).id = c.id ∧
    (c.add_turn t).status = c.status := by
  refine ⟨rfl, by simp [Conversation.add_turn], ?_, rfl, rfl, rfl⟩
  simp [Conversation.add_turn]

/-- C10: when the upcased content contains a labelled PASS token, the
default parser answers PASS even if a labelled FAIL token is present in
either order: the PASS label is tested before the FAIL label. -/
theorem labelled_pass_beats_fail (content : String)
    (hp : strIn "VERDICT: PASS" (pyUpper content) = true ∨
      strIn "VERDICT:PASS" (pyUpper content) = true)
    (_hf : strIn "VERDICT: FAIL" (pyUpper content) = true ∨
      strIn "VERDICT:FAIL" (pyUpper content) = true) :
    defaultParserVerdict content = some "PASS" := by
  unfold defaultParserVerdict
  rcases hp with h | h <;> simp [h]

/-- C10 witness: a FAIL label followed by a PASS label parses as PASS. -/
theorem labelled_pass_beats_fail_witness :
    defaultParserVerdict "verdict: fail\nbut on reflection\nVERDICT: PASS" = some "PASS" :=
  labelled_pass_beats_fail _ (Or.inl (by decide)) (Or.inl (by decide))

/-- C7 counterexample: a failed backend result whose content carries a
verdict token yields `success = false` together with
`verdict = some "PASS"` — not `verdict = null` as claimed. -/
theorem invoke_failure_verdict_counterexample :
    (failingVerdictAgent.invoke "task" "").success = false ∧
    (failingVerdictAgent.invoke "task" "").verdict = some "PASS" := by
  decide

/-- C7 (amended): `invoke` is total (never throws given a backend `run`
that returns a result); the response copies the success flag of the backend result
flag unchanged, and the verdict is parsed from the returned content
regardless of the success flag — in particular it is null whenever the
failed backend returns empty content. -/
theorem invoke_total_success_propagation (a : Agent) (prompt context : String) :
    (a.invoke prompt context).success = (a.runner.run (a.buildPrompt prompt context)).success ∧
    (a.invoke prompt context).content = (a.runner.run (a.buildPrompt prompt context)).content ∧
    (a.invoke prompt context).verdict
      = defaultParserVerdict (a.runner.run (a.buildPrompt prompt context)).content ∧
    defaultParserVerdict "" = none :=
  ⟨rfl, rfl, rfl, by decide⟩

/-- C4 counterexample: `"authentication bypass"` contains no labelled
VERDICT token, no `NEEDS_REVISION`, and no bare PASS/FAIL token (the
letters PASS sit inside the word `bypass`), yet the parser assigns PASS,
because the trailing heuristic is a raw `endswith("PASS")` on the
stripped tail. -/
theorem default_verdict_substring_counterexample :
    defaultParserVerdict "authentication bypass" = some "PASS" ∧
    strIn "VERDICT: PASS" (pyUpper "authentication bypass") = false ∧
    strIn "VERDICT:PASS" (pyUpper "authentication bypass") = false ∧
    strIn "VERDICT: FAIL" (pyUpper "authentication bypass") = false ∧
    strIn "VERDICT:FAIL" (pyUpper "authentication bypass") = false ∧
    strIn "NEEDS_REVISION" (pyUpper "authentication bypass") = false := by
  decide

/-- C4 (amended): in the absence of labelled VERDICT tokens the parser
assigns PASS iff the stripped last-100-character tail of the upcased text
ends with the four letters `PASS` (even inside a longer word) or the tail
contains a line beginning with `PASS`; failing that, FAIL likewise; then
`NEEDS_REVISION` on substring match anywhere; otherwise null.  The
negative example of the spec, prose with `"the tests passed successfully"`,
still yields null. -/
theorem default_verdict_tail_characterization :
    (∀ content : String,
      strIn "VERDICT: PASS" (pyUpper content) = false →
      strIn "VERDICT:PASS" (pyUpper content) = false →
      strIn "VERDICT: FAIL" (pyUpper content) = false →
      strIn "VERDICT:FAIL" (pyUpper content) = false →
      defaultParserVerdict content =
        (let tl := if pyLen (pyUpper content) > 100 then pyTakeLast (pyUpper content) 100
          else pyUpper content
        if strEnds (pyStrip tl) "PASS" || strIn "\nPASS" tl then some "PASS"
        else if strEnds (pyStrip tl) "FAIL" || strIn "\nFAIL" tl then some "FAIL"
        else if strIn "NEEDS_REVISION" (pyUpper content) then some "NEEDS_REVISION"
        else none)) ∧
    defaultParserVerdict "the tests passed successfully" = none := by
  constructor
  · intro content h1 h2 h3 h4
    unfold defaultParserVerdict
    simp [h1, h2, h3, h4]
  · decide

/-- C4 witness: a bare trailing `PASS` line parses as PASS via the
amended tail characterization. -/
theorem default_verdict_tail_characterization_witness :
    defaultParserVerdict "looks good\nPASS" = some "PASS" := by
  have h := default_verdict_tail_characterization.1 "looks good\nPASS"
    (by decide) (by decide) (by decide) (by decide)
  rw [h]
  decide

/-- C3: the workflow does not halt on a failed phase.  With a backend
that fails at every PLANNING call, the failed turn (`success = false`,
content `"ERROR"`) is followed in the same iteration by CODING and
REVIEWING turns; the error content flows verbatim into the executor context
(it reappears inside the response of the CODING turn, which echoes its
prompt); and the run finishes with status `"completed"` and stop reason
`"success"` — never status `"failed"` with reason `"backend_error"` as
the spec mandates. -/
theorem moa_continues_after_backend_failure :
    (run_moa_workflow envBackendFailure 5).conversationOf.map
        (fun c => (c.status, c.turns.map (fun t => t.success),
          c.turns.map (fun t => strIn "ERROR" t.response), c.metadata_iterations))
      = some ("completed", [false, true, true], [true, true, false], some 1) ∧
    (run_moa_workflow envBackendFailure 5).stopReasonOf = some "success" := by
  decide

/-- C5 counterexample: with `context_char_limit = 0` and otherwise
healthy stub agents, the first context read exceeds the limit, the
compaction path raises `TypeError` at iteration 1, and the workflow
returns no `Conversation` at all — so no status or iteration metadata is
ever produced. -/
theorem moa_crashes_when_compaction_triggers :
    (run_moa_workflow envZeroLimit 5).isOk = false ∧
    (run_moa_workflow envZeroLimit 5).errIteration = some 1 := by
  decide

/-- C6: the freshly initialized Memory Bank context is 763 characters
long; with `context_char_limit = 763` the pre-planning read first exceeds
the limit exactly before iteration 2.  The code then invokes `compact()`
exactly once, after the phases of iteration 1 and before any iteration-2
phase — but `compact` executes `summarizer_callable(prompt)` on
`architect.runner`, a `CLIRunner` with no `__call__`, so the call raises
`TypeError`: it never completes, the context is never re-read, and
the PLANNING of iteration 2 is never reached. -/
theorem moa_compact_typeerror_before_iteration_two :
    pyLen ((MemoryBank.init_files "T" "G").read_context) = 763 ∧
    run_moa_workflow envCompactAtTwo 3 =
      .typeErrorNotCallable 2
        [.ctxCheck 1 763, .planning 1, .coding 1, .reviewing 1, .fixing 1,
         .ctxCheck 2 1755, .compactCall 2] := by
  decide

/-- When `should_stop` answers `false`, the iteration is still strictly
below `max_iterations`. -/
theorem should_stop_false_lt (c : ConvergenceCriteria) (it : Int) (v : String) (t : Bool)
    (h : (c.should_stop it v t).1 = false) : it < c.max_iterations := by
  by_contra hge
  unfold ConvergenceCriteria.should_stop at h
  rw [if_pos (by omega)] at h
  simp at h

/-- `moaStatusOf` in propositional form. -/
theorem moaStatusOf_eq (sr : Bool × String) :
    moaStatusOf sr = if sr.2 = "success" then "completed" else "failed" := by
  by_cases h : sr.2 = "success" <;> simp [moaStatusOf, h]

/-- `moaCont` preserves the trace structure. -/
theorem moaCont_traceOf (i : Nat) (evs : List MoaEvent) (o : MoaOutcome) :
    (moaCont i evs o).traceOf = evs ++ .fixing i :: o.traceOf := by
  cases o <;> rfl

/-- `moaCont` on a normal outcome. -/
theorem moaCont_ok (i : Nat) (evs : List MoaEvent) (r : MoaResult) :
    moaCont i evs (.ok r) = .ok { r with trace := evs ++ .fixing i :: r.trace } := rfl

/-- Main loop invariant: as long as the iteration counter is below
`max_iterations`, there is enough fuel left, and no pre-planning context
read in the produced trace exceeds the compaction limit, the loop
finishes normally within `max_iterations` iterations, with the status
fields determined by the stop reason. -/
theorem moaLoop_ok (E : MoaEnv) :
    ∀ (fuel k : Nat) (mb : MemoryBank) (conv : Conversation) (tick : Nat),
      (k : Int) < E.convergence.max_iterations →
      E.convergence.max_iterations ≤ (fuel : Int) + (k : Int) →
      ctxWithinLimit E.convergence.context_char_limit
        (moaLoop E fuel k mb conv tick).traceOf = true →
      ∃ r, moaLoop E fuel k mb conv tick = .ok r ∧
        (r.iterations : Int) ≤ E.convergence.max_iterations ∧
        k < r.iterations ∧
        r.conversation.status = (if r.stop_reason = "success" then "completed" else "failed") ∧
        r.conversation.metadata_iterations = some r.iterations ∧
        r.conversation.metadata_final_status = some r.conversation.status := by
  intro fuel
  induction fuel with
  | zero =>
    intro k mb conv tick hk hfuel hctx
    exfalso
    omega
  | succ fuel ih =>
    intro k mb conv tick hk hfuel hctx
    simp only [moaLoop] at hctx ⊢
    by_cases hlim : pyLen (mb.read_context) > E.convergence.context_char_limit
    · rw [if_pos hlim] at hctx
      simp [MoaOutcome.traceOf, ctxWithinLimit] at hctx
      omega
    · rw [if_neg hlim] at hctx ⊢
      set plan := moaPlan E (mb.read_context) with hplan
      set impl := moaImpl E plan with himpl
      set review := moaReview E impl with hreview
      set sr := moaStopOf E (k + 1) review with hsr
      by_cases hstop : sr.1 = true
      · rw [if_pos hstop] at hctx ⊢
        refine ⟨_, rfl, ?_, ?_, ?_, rfl, rfl⟩
        · show ((k + 1 : Nat) : Int) ≤ E.convergence.max_iterations
          omega
        · show k < k + 1
          omega
        · exact moaStatusOf_eq sr
      · rw [if_neg hstop] at hctx ⊢
        rw [moaCont_traceOf] at hctx
        simp only [ctxWithinLimit, List.all_append, List.all_cons, Bool.and_eq_true] at hctx
        have hlt : ((k + 1 : Nat) : Int) < E.convergence.max_iterations := by
          have hfalse : sr.1 = false := by
            rcases Bool.eq_false_or_eq_true sr.1 with h | h
            · exact absurd h hstop
            · exact h
          rw [hsr] at hfalse
          exact should_stop_false_lt _ _ _ _ hfalse
        obtain ⟨r, hr, h1, h2, h3, h4, h5⟩ :=
          ih (k + 1) _ _ (tick + 1) hlt (by omega)
            (by simpa [ctxWithinLimit] using hctx.2.2)
        rw [hr, moaCont_ok]
        refine ⟨_, rfl, h1, ?_, h3, h4, h5⟩
        show k < r.iterations
        omega

/-- C5 (amended): for every goal, criteria with `max_iterations ≥ 1` (a
positive iteration cap, as the data model requires) and terminating stub
agents whose backends always return a result, and provided no
pre-planning context read of the run exceeds `context_char_limit` (if one
does, the compaction path raises `TypeError` and nothing is returned, see
the counterexample), `run_moa_workflow` terminates after at most
`max_iterations` iterations; the returned conversation has status
`"completed"` exactly when the stop reason is `"success"` and `"failed"`
for every other stop reason, and `metadata["iterations"]` equals the
number of executed iterations. -/
theorem moa_terminates_within_max_iterations (E : MoaEnv)
    (hpos : 1 ≤ E.convergence.max_iterations)
    (hctx : ctxWithinLimit E.convergence.context_char_limit
      (run_moa_workflow E E.convergence.max_iterations.toNat).traceOf = true) :
    ∃ r, run_moa_workflow E E.convergence.max_iterations.toNat = .ok r ∧
      (r.iterations : Int) ≤ E.convergence.max_iterations ∧
      1 ≤ r.iterations ∧
      r.conversation.status = (if r.stop_reason = "success" then "completed" else "failed") ∧
      r.conversation.metadata_iterations = some r.iterations ∧
      r.conversation.metadata_final_status = some r.conversation.status := by
  unfold run_moa_workflow at hctx ⊢
  exact moaLoop_ok E E.convergence.max_iterations.toNat 0 _ _ 1 (by omega) (by omega) hctx

/-- C5 witness: a healthy stub run (critic passes at iteration 1, default
criteria) satisfies the hypotheses of the amended theorem and returns a
conversation. -/
theorem moa_terminates_within_max_iterations_witness :
    (run_moa_workflow envHealthy 5).isOk = true := by
  obtain ⟨r, hr, -, -, -, -, -⟩ :=
    moa_terminates_within_max_iterations envHealthy (by decide) (by decide)
  rw [show envHealthy.convergence.max_iterations.toNat = 5 from rfl] at hr
  rw [hr]
  rfl

/-- `splitLines` always yields at least one line. -/
theorem splitLines_ne_nil (s : List Char) : splitLines s ≠ [] := by
  induction s with
  | nil => simp [splitLines]
  | cons c cs ih =>
    simp only [splitLines]
    split
    · simp
    · split
      · simp
      · simp

/-- Splitting after a newline-free chunk prepends the chunk to the first
line of the remainder. -/
theorem splitLines_append (l s : List Char) (h : ∀ c ∈ l, c ≠ '\n') :
    splitLines (l ++ s) = (l ++ (splitLines s).headD []) :: (splitLines s).tail := by
  induction l with
  | nil =>
    simp only [List.nil_append]
    cases hs : splitLines s with
    | nil => exact absurd hs (splitLines_ne_nil s)
    | cons a as => simp [hs]
  | cons c cs ih =>
    have hc : c ≠ '\n' := h c (List.mem_cons_self c cs)
    have ih' := ih (fun x hx => h x (List.mem_cons_of_mem c hx))
    simp only [List.cons_append, splitLines, List.append_eq, if_neg hc, ih']

/-- `joinLines` on two or more lines. -/
theorem joinLines_cons (l a : List Char) (as : List (List Char)) :
    joinLines (l :: a :: as) = l ++ '\n' :: joinLines (a :: as) := rfl

/-- Splitting is a left inverse of joining on newline-free lines. -/
theorem splitLines_joinLines (L : List (List Char)) (hne : L ≠ [])
    (h : ∀ l ∈ L, ∀ c ∈ l, c ≠ '\n') :
    splitLines (joinLines L) = L := by
  induction L with
  | nil => exact absurd rfl hne
  | cons l ls ih =>
    cases ls with
    | nil =>
      have hs := splitLines_append l [] (h l (by simp))
      simpa [splitLines, joinLines] using hs
    | cons a as =>
      rw [joinLines_cons]
      rw [splitLines_append l ('\n' :: joinLines (a :: as)) (h l (by simp))]
      have hsplit : splitLines ('\n' :: joinLines (a :: as))
          = [] :: splitLines (joinLines (a :: as)) := by
        simp [splitLines]
      rw [hsplit]
      simp only [List.headD_cons, List.tail_cons, List.append_nil]
      rw [ih (by simp) (fun x hx => h x (List.mem_cons_of_mem l hx))]

/-- While outside the section, lines that do not start with the section
header pass through `apcLines` unchanged. -/
theorem apcLines_notin (hdr content : List Char) (pre rest : List (List Char))
    (h : ∀ l ∈ pre, hdr.isPrefixOf l = false) :
    apcLines hdr content false (pre ++ rest) = pre ++ apcLines hdr content false rest := by
  induction pre with
  | nil => rfl
  | cons p ps ih =>
    have hp : hdr.isPrefixOf p = false := h p (by simp)
    simp only [List.cons_append, apcLines, List.append_eq]
    rw [if_neg (by simp [hp]), if_neg (by simp)]
    rw [ih (fun x hx => h x (by simp [hx]))]

/-- While inside the section, body lines (no `## ` heading) pass through
unchanged. -/
theorem apcLines_insec (hdr content : List Char) (body rest : List (List Char))
    (hhdr : "## ".data.isPrefixOf hdr = true)
    (h : ∀ l ∈ body, "## ".data.isPrefixOf l = false) :
    apcLines hdr content true (body ++ rest) = body ++ apcLines hdr content true rest := by
  induction body with
  | nil => rfl
  | cons b bs ih =>
    have h2 : "## ".data.isPrefixOf b = false := h b (by simp)
    have h1 : ¬ hdr.isPrefixOf b = true := by
      intro hcontr
      rw [List.isPrefixOf_iff_prefix] at hcontr hhdr
      have hpref : "## ".data <+: b := hhdr.trans hcontr
      rw [← List.isPrefixOf_iff_prefix] at hpref
      simp [h2] at hpref
    simp only [List.cons_append, apcLines, List.append_eq]
    rw [if_neg h1, if_neg (by simp [h2])]
    rw [ih (fun x hx => h x (by simp [hx]))]

/-- At the next `## ` heading, `apcLines` inserts the content and an
empty line before the heading and leaves the section. -/
theorem apcLines_next (hdr content nextHdr : List Char) (post : List (List Char))
    (hn : "## ".data.isPrefixOf nextHdr = true)
    (hnh : hdr.isPrefixOf nextHdr = false) :
    apcLines hdr content true (nextHdr :: post)
      = content :: [] :: nextHdr :: apcLines hdr content false post := by
  simp only [apcLines]
  rw [if_neg (by simp [hnh]), if_pos (by simp [hn])]

/-- The section header line itself switches `apcLines` into the
section. -/
theorem apcLines_hdrline (hdr content : List Char) (rest : List (List Char)) :
    apcLines hdr content false (hdr :: rest) = hdr :: apcLines hdr content true rest := by
  simp only [apcLines]
  rw [if_pos (by rw [List.isPrefixOf_iff_prefix])]

/-- After the section, remaining lines pass through unchanged. -/
theorem apcLines_tail_nil (hdr content : List Char) (post : List (List Char))
    (h : ∀ l ∈ post, hdr.isPrefixOf l = false) :
    apcLines hdr content false post = post := by
  have hh := apcLines_notin hdr content post [] h
  simpa [apcLines] using hh

/-- C8 counterexample: on an active context `"## A\nold\n## B\nb"`,
appending `"new"` to section `A` yields `"## A\nold\nnew\n\n## B\nb"` —
the old body line `"old"` is retained and the content is inserted after
it, so the body of the named subsection is NOT replaced with the given
content, contrary to the claim. -/
theorem append_to_active_context_counterexample :
    (mbTwoSections.append_to_active_context "A" "new").active_context
      = some "## A\nold\nnew\n\n## B\nb" ∧
    (mbTwoSections.append_to_active_context "A" "new").active_context
      ≠ some "## A\nnew\n## B\nb" ∧
    strIn "old" ((mbTwoSections.append_to_active_context "A" "new").read_active_context)
      = true := by
  decide

/-- C8 (amended): when a line of the active-context document starts with
`"## <section>"`, `append_to_active_context` APPENDS the given content
(followed by a blank line) at the end of the existing body of that subsection,
immediately before the next `## ` heading; every other line — and the
other two Memory Bank files — is left unchanged.  When no such heading
exists, a new `"## <section>"` subsection holding the content is appended
at the end of the document. -/
theorem append_to_active_context_appends :
    (∀ (mb : MemoryBank) (sec content : String) (pre body post : List (List Char))
      (nextHdr : List Char),
      mb.active_context = some (String.mk (joinLines
        (pre ++ ("## " ++ sec).data :: (body ++ nextHdr :: post)))) →
      (∀ l ∈ pre, ("## " ++ sec).data.isPrefixOf l = false) →
      (∀ l ∈ body, "## ".data.isPrefixOf l = false) →
      "## ".data.isPrefixOf nextHdr = true →
      ("## " ++ sec).data.isPrefixOf nextHdr = false →
      (∀ l ∈ post, ("## " ++ sec).data.isPrefixOf l = false) →
      (∀ l ∈ pre, ∀ c ∈ l, c ≠ '\n') →
      (∀ c ∈ sec.data, c ≠ '\n') →
      (∀ l ∈ body, ∀ c ∈ l, c ≠ '\n') →
      (∀ c ∈ nextHdr, c ≠ '\n') →
      (∀ l ∈ post, ∀ c ∈ l, c ≠ '\n') →
      strIn ("## " ++ sec) mb.read_active_context = true →
      (mb.append_to_active_context sec content).active_context
        = some (String.mk (joinLines
            (pre ++ ("## " ++ sec).data :: (body ++ content.data :: [] :: nextHdr :: post)))) ∧
      (mb.append_to_active_context sec content).product_context = mb.product_context ∧
      (mb.append_to_active_context sec content).system_patterns = mb.system_patterns) ∧
    (∀ (mb : MemoryBank) (sec content : String),
      strIn ("## " ++ sec) mb.read_active_context = false →
      (mb.append_to_active_context sec content).active_context
        = some (mb.read_active_context ++ "\n\n## " ++ sec ++ "\n" ++ content)) := by
  constructor
  · intro mb sec content pre body post nextHdr hact hpre hbody hnext hnexthdr hpost
      hnlpre hnlsec hnlbody hnlnext hnlpost hin
    have hcur : mb.read_active_context
        = String.mk (joinLines (pre ++ ("## " ++ sec).data :: (body ++ nextHdr :: post))) := by
      unfold MemoryBank.read_active_context
      rw [hact]
    have hdata : ("## " ++ sec).data = "## ".data ++ sec.data := rfl
    have hnlhdr : ∀ c ∈ ("## " ++ sec).data, c ≠ '\n' := by
      rw [hdata]
      intro c hc
      rcases List.mem_append.mp hc with h | h
      · have he : "## ".data = ['#', '#', ' '] := rfl
        rw [he] at h
        simp only [List.mem_cons, List.mem_singleton, List.not_mem_nil, or_false] at h
        rcases h with rfl | rfl | rfl <;> decide
      · exact hnlsec c h
    have hroundtrip : splitLines (joinLines
        (pre ++ ("## " ++ sec).data :: (body ++ nextHdr :: post)))
        = pre ++ ("## " ++ sec).data :: (body ++ nextHdr :: post) := by
      apply splitLines_joinLines
      · simp
      · intro l hl
        rcases List.mem_append.mp hl with h | h
        · exact hnlpre l h
        · rcases List.mem_cons.mp h with h | h
          · subst h; exact hnlhdr
          · rcases List.mem_append.mp h with h | h
            · exact hnlbody l h
            · rcases List.mem_cons.mp h with h | h
              · subst h; exact hnlnext
              · exact hnlpost l h
    have hhdrpre : "## ".data.isPrefixOf ("## " ++ sec).data = true := by
      rw [List.isPrefixOf_iff_prefix, hdata]
      exact ⟨sec.data, rfl⟩
    refine ⟨?_, ?_, ?_⟩
    · simp only [MemoryBank.append_to_active_context]
      rw [hcur, if_pos (hcur ▸ hin)]
      have hdatamk : (String.mk (joinLines
          (pre ++ ("## " ++ sec).data :: (body ++ nextHdr :: post)))).data
          = joinLines (pre ++ ("## " ++ sec).data :: (body ++ nextHdr :: post)) := rfl
      rw [hdatamk, hroundtrip]
      rw [apcLines_notin _ _ pre _ hpre, apcLines_hdrline,
        apcLines_insec _ _ body _ hhdrpre hbody,
        apcLines_next _ _ _ _ hnext hnexthdr,
        apcLines_tail_nil _ _ post hpost]
    · simp only [MemoryBank.append_to_active_context]
      split <;> rfl
    · simp only [MemoryBank.append_to_active_context]
      split <;> rfl
  · intro mb sec content hnotin
    simp only [MemoryBank.append_to_active_context]
    rw [if_neg (by simp [hnotin])]

/-- C8 witness: the amended theorem applied to the two-section document,
appending `"new"` to section `A`. -/
theorem append_to_active_context_appends_witness :
    (mbTwoSections.append_to_active_context "A" "new").active_context
      = some "## A\nold\nnew\n\n## B\nb" ∧
    (mbTwoSections.append_to_active_context "A" "new").product_context
      = mbTwoSections.product_context := by
  have h := append_to_active_context_appends.1 mbTwoSections "A" "new"
    [] [['o', 'l', 'd']] [['b']] "## B".data
    (by decide) (by simp) (by decide) (by decide) (by decide) (by decide)
    (by simp) (by decide) (by decide) (by decide) (by decide) (by decide)
  exact ⟨h.1.trans (by decide), h.2.1⟩

end BinksOrch
